import Mathlib

/-!
Verification of `altair_transform/utils/timeunit.py`.

The source converts between epoch-millisecond timestamps and calendar dates
and evaluates Vega-Lite style `timeUnit` bucketing.  Dates are modelled at
millisecond resolution: a pandas `Timestamp` is a pair of an integer value
and an optional timezone tag; a tz-aware value stores true epoch
milliseconds (UTC), a naive value stores wall-clock milliseconds.  The
process-local timezone (`dateutil.tz.tzlocal()`) is modelled as an injected
fixed offset `lo` (milliseconds east of UTC), per the fixed local-zone
configuration the specification assumes.

Calendar field extraction (`.year`, `.month`, ... of pandas) follows the
proleptic Gregorian calendar; it is embedded here with a standard era-based
civil-from-days / days-from-civil algorithm pair (era of 400 years split
into centuries, quadrennial year recovery, March-based months), which
agrees with pandas' field extraction on its whole representable range.
-/

/-- Leap-year predicate on a year reduced modulo 400 (the Gregorian rule
only depends on the year modulo 400). -/
def natLeap (y : Nat) : Bool := y % 4 == 0 && (y % 100 != 0 || y % 400 == 0)

/-- Gregorian leap-year rule for an arbitrary (integer) year. -/
def isLeap (y : Int) : Bool := natLeap ((y % 400).toNat)

/-- Number of days in month `m` of a (leap or non-leap) year. -/
def dimN (leap : Bool) (m : Nat) : Nat :=
  if m = 2 then (if leap then 29 else 28)
  else if m = 4 ∨ m = 6 ∨ m = 9 ∨ m = 11 then 30 else 31

/-- Number of days in month `m` of year `y`. -/
def daysInMonth (y : Int) (m : Nat) : Nat := dimN (isLeap y) m

/-- Day of the March-based year for civil month `m` and day `d` (0-based). -/
def doyOf (m d : Nat) : Nat := (153 * ((m + 9) % 12) + 2) / 5 + d - 1

/-- Day of a 400-year era for March-based year-of-era `yoe` and day-of-year
`doy` (both 0-based). -/
def doeOf (yoe doy : Nat) : Nat := yoe * 365 + yoe / 4 - yoe / 100 + doy

/-- Century index (0..3) of a day of a 400-year era. -/
def cenOf (doe : Nat) : Nat := min (doe / 36524) 3

/-- Remaining day count within the century. -/
def cenRem (doe : Nat) : Nat := doe - 36524 * cenOf doe

/-- Year within the century (0..99) of a day count within the century. -/
def yinOf (q : Nat) : Nat := (4 * q + 3) / 1461

/-- Day of the March-based year, from a day count within the century. -/
def doyRem (q : Nat) : Nat := q - 1461 * yinOf q / 4

/-- March-based month index (0 = March .. 11 = February) of a day of year. -/
def mpOf (doy : Nat) : Nat := (5 * doy + 2) / 153

/-- Civil day-of-month of a March-based day of year. -/
def dOf (doy : Nat) : Nat := doy - (153 * mpOf doy + 2) / 5 + 1

/-- Civil month (1..12) of a March-based day of year. -/
def mOf (doy : Nat) : Nat := (mpOf doy + 2) % 12 + 1

/-- Recover (year-of-era, civil month, civil day) from a 0-based day of a
400-year era. -/
def yoeMD (doe : Nat) : Nat × Nat × Nat :=
  (100 * cenOf doe + yinOf (cenRem doe),
    mOf (doyRem (cenRem doe)), dOf (doyRem (cenRem doe)))

/-- Days since 1970-01-01 of the civil date `y-m-d` (proleptic Gregorian). -/
def daysFromCivil (y : Int) (m d : Nat) : Int :=
  let y' := if m ≤ 2 then y - 1 else y
  let era := y' / 400
  let yoe := (y' % 400).toNat
  era * 146097 + (doeOf yoe (doyOf m d) : Int) - 719468

/-- Civil date `(y, m, d)` of a count of days since 1970-01-01. -/
def civilFromDays (z : Int) : Int × Nat × Nat :=
  let era := (z + 719468) / 146097
  let doe := ((z + 719468) % 146097).toNat
  let t := yoeMD doe
  (era * 400 + t.1 + (if t.2.1 ≤ 2 then 1 else 0), t.2.1, t.2.2)

theorem cen_rt (c q : Nat) (hc : c ≤ 3) (hq : q < 36524 + (if c = 3 then 1 else 0)) :
    cenOf (36524 * c + q) = c ∧ cenRem (36524 * c + q) = q := by
  have hc' : cenOf (36524 * c + q) = c := by
    unfold cenOf
    simp only [Nat.min_def]
    split at hq <;> split <;> omega
  refine ⟨hc', ?_⟩
  unfold cenRem
  rw [hc']
  omega

theorem yin_rt (r doy : Nat) (hr : r ≤ 99)
    (hdoy : doy < 365 + (if (r + 1) % 4 = 0 then 1 else 0)) :
    yinOf (1461 * r / 4 + doy) = r ∧ doyRem (1461 * r / 4 + doy) = doy := by
  have he : yinOf (1461 * r / 4 + doy) = r := by
    unfold yinOf
    split at hdoy <;> omega
  refine ⟨he, ?_⟩
  unfold doyRem
  rw [he]
  omega

theorem mpOf_eq (doy mp : Nat) (hmp : mp ≤ 11) (h1 : (153 * mp + 2) / 5 ≤ doy)
    (h2 : doy < (153 * (mp + 1) + 2) / 5) : mpOf doy = mp := by
  unfold mpOf
  interval_cases mp <;> omega

theorem md_rt (m d : Nat) (hm1 : 1 ≤ m) (hm2 : m ≤ 12) (hd1 : 1 ≤ d)
    (hd2 : d ≤ dimN true m) :
    mOf (doyOf m d) = m ∧ dOf (doyOf m d) = d ∧ doyOf m d ≤ 365 := by
  unfold dimN at hd2
  have hmp : mpOf (doyOf m d) = (m + 9) % 12 := by
    apply mpOf_eq
    · omega
    · unfold doyOf; omega
    · unfold doyOf
      interval_cases m <;> norm_num at hd2 ⊢ <;> omega
  refine ⟨?_, ?_, ?_⟩
  · unfold mOf
    rw [hmp]
    omega
  · unfold dOf
    rw [hmp]
    unfold doyOf
    omega
  · unfold doyOf
    interval_cases m <;> norm_num at hd2 ⊢ <;> omega

theorem dimN_le_true (b : Bool) (m : Nat) : dimN b m ≤ dimN true m := by
  cases b
  · unfold dimN
    norm_num
    repeat' split <;> omega
  · exact le_refl _

theorem yoeMD_doeOf (yoe m d : Nat) (hy : yoe < 400) (hm1 : 1 ≤ m) (hm2 : m ≤ 12)
    (hd1 : 1 ≤ d)
    (hd2 : d ≤ dimN (natLeap ((yoe + if m ≤ 2 then 1 else 0) % 400)) m) :
    doeOf yoe (doyOf m d) < 146097 ∧ yoeMD (doeOf yoe (doyOf m d)) = (yoe, m, d) := by
  have hd2' : d ≤ dimN true m := le_trans hd2 (dimN_le_true _ _)
  obtain ⟨hmO, hdO, h365⟩ := md_rt m d hm1 hm2 hd1 hd2'
  have hleap : doyOf m d = 365 →
      (yoe % 100 + 1) % 4 = 0 ∧ (yoe % 100 = 99 → yoe = 399) := by
    intro h5
    have hm2eq : m = 2 := by
      have h2 : mOf 365 = 2 := by decide
      rw [h5, h2] at hmO
      omega
    have hd29 : d = 29 := by
      have h2 : dOf 365 = 29 := by decide
      rw [h5, h2] at hdO
      omega
    rw [hm2eq] at hd2
    subst hd29
    unfold dimN at hd2
    norm_num at hd2
    split at hd2
    case isTrue hL =>
      simp only [natLeap, Bool.and_eq_true, beq_iff_eq, Bool.or_eq_true,
        bne_iff_ne, ne_eq] at hL
      constructor
      · omega
      · intro h99
        omega
    case isFalse hL => omega
  have hle : 1461 * (yoe % 100) / 4 ≤ 36159 := by omega
  have hq : 1461 * (yoe % 100) / 4 + doyOf m d <
      36524 + (if yoe / 100 = 3 then 1 else 0) := by
    by_cases h5 : doyOf m d = 365
    · have hl := hleap h5
      by_cases h99 : yoe % 100 = 99
      · have : yoe = 399 := hl.2 h99
        subst this
        norm_num
        omega
      · split <;> omega
    · split <;> omega
  have hdoyb : doyOf m d < 365 + (if (yoe % 100 + 1) % 4 = 0 then 1 else 0) := by
    by_cases h5 : doyOf m d = 365
    · have hl := hleap h5
      split <;> omega
    · split <;> omega
  have hsplit : doeOf yoe (doyOf m d) =
      36524 * (yoe / 100) + (1461 * (yoe % 100) / 4 + doyOf m d) := by
    have h1 : yoe / 4 = 25 * (yoe / 100) + yoe % 100 / 4 := by omega
    have h2 : 1461 * (yoe % 100) / 4 = 365 * (yoe % 100) + yoe % 100 / 4 := by omega
    unfold doeOf
    omega
  have hcen := cen_rt (yoe / 100) (1461 * (yoe % 100) / 4 + doyOf m d) (by omega) hq
  have hyin := yin_rt (yoe % 100) (doyOf m d) (by omega) hdoyb
  constructor
  · rw [hsplit]
    split at hq <;> omega
  · unfold yoeMD
    have hfin : 100 * (yoe / 100) + yoe % 100 = yoe := by omega
    rw [hsplit, hcen.1, hcen.2, hyin.1, hyin.2, hmO, hdO, hfin]

theorem mOf_bounds (doy : Nat) : 1 ≤ mOf doy ∧ mOf doy ≤ 12 := by
  unfold mOf
  omega

theorem dOf_pos (doy : Nat) : 1 ≤ dOf doy := by
  unfold dOf
  omega

theorem yoeMD_mdBounds (doe : Nat) :
    1 ≤ (yoeMD doe).2.1 ∧ (yoeMD doe).2.1 ≤ 12 ∧ 1 ≤ (yoeMD doe).2.2 := by
  show 1 ≤ mOf (doyRem (cenRem doe)) ∧ mOf (doyRem (cenRem doe)) ≤ 12 ∧
    1 ≤ dOf (doyRem (cenRem doe))
  exact ⟨(mOf_bounds _).1, (mOf_bounds _).2, dOf_pos _⟩

theorem natLeap_bridge (era : Int) (c : Nat) :
    isLeap (400 * era + (c : Int)) = natLeap (c % 400) := by
  unfold isLeap
  have h : ((400 * era + (c : Int)) % 400).toNat = c % 400 := by omega
  rw [h]

theorem civilFromDays_eval (era : Int) (doe : Nat) (h : doe < 146097) :
    civilFromDays (era * 146097 + (doe : Int) - 719468) =
      (era * 400 + (yoeMD doe).1 + (if (yoeMD doe).2.1 ≤ 2 then 1 else 0),
        (yoeMD doe).2.1, (yoeMD doe).2.2) := by
  simp only [civilFromDays]
  have h1 : era * 146097 + (doe : Int) - 719468 + 719468 = era * 146097 + (doe : Int) := by
    ring
  rw [h1]
  have h2 : (era * 146097 + (doe : Int)) / 146097 = era := by omega
  have h3 : ((era * 146097 + (doe : Int)) % 146097).toNat = doe := by omega
  rw [h2, h3]

theorem civil_rt (y : Int) (m d : Nat) (hm1 : 1 ≤ m) (hm2 : m ≤ 12) (hd1 : 1 ≤ d)
    (hd2 : d ≤ daysInMonth y m) :
    civilFromDays (daysFromCivil y m d) = (y, m, d) := by
  set y' := if m ≤ 2 then y - 1 else y with hydef
  set era := y' / 400 with hera_def
  set yoeN := (y' % 400).toNat with hyoe_def
  have hnn : (0 : Int) ≤ y' % 400 := Int.emod_nonneg _ (by norm_num)
  have hlt : y' % 400 < 400 := Int.emod_lt_of_pos _ (by norm_num)
  have hdm : y' = 400 * era + y' % 400 := by
    rw [hera_def]
    omega
  have hyoeLt : yoeN < 400 := by omega
  have hyadj : y = y' + (if m ≤ 2 then (1 : Int) else 0) := by
    rw [hydef]
    split <;> ring
  have hbridge : isLeap y = natLeap ((yoeN + if m ≤ 2 then 1 else 0) % 400) := by
    by_cases hmle : m ≤ 2
    · have hyy : y = 400 * era + ((yoeN + 1 : Nat) : Int) := by
        simp only [hmle, if_true] at hyadj
        push_cast
        omega
      simp only [hmle, if_true]
      rw [hyy, natLeap_bridge]
    · have hyy : y = 400 * era + ((yoeN + 0 : Nat) : Int) := by
        simp only [hmle, if_false] at hyadj
        push_cast
        omega
      simp only [hmle, if_false]
      rw [hyy, natLeap_bridge]
  rw [show daysInMonth y m = dimN (isLeap y) m from rfl, hbridge] at hd2
  obtain ⟨hlt146, hmd⟩ := yoeMD_doeOf yoeN m d hyoeLt hm1 hm2 hd1 hd2
  have hdfc : daysFromCivil y m d =
      era * 146097 + (doeOf yoeN (doyOf m d) : Int) - 719468 := rfl
  have ha : (yoeMD (doeOf yoeN (doyOf m d))).1 = yoeN := by rw [hmd]
  have hb : (yoeMD (doeOf yoeN (doyOf m d))).2.1 = m := by rw [hmd]
  have hc : (yoeMD (doeOf yoeN (doyOf m d))).2.2 = d := by rw [hmd]
  rw [hdfc, civilFromDays_eval _ _ hlt146, ha, hb, hc]
  have hfst : era * 400 + (yoeN : Int) + (if m ≤ 2 then (1 : Int) else 0) = y := by
    by_cases hmle : m ≤ 2 <;>
      simp only [hmle, if_true, if_false] at hyadj ⊢ <;> omega
  rw [hfst]

theorem civil_mdBounds (z : Int) :
    1 ≤ (civilFromDays z).2.1 ∧ (civilFromDays z).2.1 ≤ 12 ∧
    1 ≤ (civilFromDays z).2.2 := by
  show 1 ≤ (yoeMD (((z + 719468) % 146097).toNat)).2.1 ∧
    (yoeMD (((z + 719468) % 146097).toNat)).2.1 ≤ 12 ∧
    1 ≤ (yoeMD (((z + 719468) % 146097).toNat)).2.2
  exact yoeMD_mdBounds _

/-- The seven calendar components a pandas timestamp exposes (`.year`,
`.month`, `.day`, `.hour`, `.minute`, `.second`, `.microsecond // 1000`),
read from wall-clock milliseconds. -/
structure Fields where
  year : Int
  month : Nat
  day : Nat
  hour : Nat
  minute : Nat
  second : Nat
  millisecond : Nat
deriving DecidableEq

/-- Calendar components of a wall-clock value in milliseconds. -/
def fieldsOf (wall : Int) : Fields :=
  let days := wall / 86400000
  let tod := (wall % 86400000).toNat
  ⟨(civilFromDays days).1, (civilFromDays days).2.1, (civilFromDays days).2.2,
    tod / 3600000, tod % 3600000 / 60000, tod % 60000 / 1000, tod % 1000⟩

/-- Wall-clock milliseconds of given calendar components (the value
`pd.to_datetime` assigns to the assembled `Y-M-D h:m:s.ms` text). -/
def encodeFields (y : Int) (m d h mi s ms : Nat) : Int :=
  daysFromCivil y m d * 86400000 +
    ((h * 3600000 + mi * 60000 + s * 1000 + ms : Nat) : Int)

theorem fieldsOf_encodeFields (y : Int) (m d h mi s ms : Nat)
    (hm1 : 1 ≤ m) (hm2 : m ≤ 12) (hd1 : 1 ≤ d) (hd2 : d ≤ daysInMonth y m)
    (hh : h < 24) (hmi : mi < 60) (hs : s < 60) (hms : ms < 1000) :
    fieldsOf (encodeFields y m d h mi s ms) = ⟨y, m, d, h, mi, s, ms⟩ := by
  have hT : ((h * 3600000 + mi * 60000 + s * 1000 + ms : Nat) : Int) < 86400000 := by
    push_cast
    omega
  have hT0 : (0 : Int) ≤ ((h * 3600000 + mi * 60000 + s * 1000 + ms : Nat) : Int) := by
    positivity
  have h1 : encodeFields y m d h mi s ms / 86400000 = daysFromCivil y m d := by
    unfold encodeFields
    omega
  have h2 : (encodeFields y m d h mi s ms % 86400000).toNat =
      h * 3600000 + mi * 60000 + s * 1000 + ms := by
    unfold encodeFields
    omega
  have hc := civil_rt y m d hm1 hm2 hd1 hd2
  have ha : (civilFromDays (daysFromCivil y m d)).1 = y := by rw [hc]
  have hb : (civilFromDays (daysFromCivil y m d)).2.1 = m := by rw [hc]
  have hd : (civilFromDays (daysFromCivil y m d)).2.2 = d := by rw [hc]
  show Fields.mk _ _ _ _ _ _ _ = _
  rw [h1, h2, ha, hb, hd]
  have e1 : (h * 3600000 + mi * 60000 + s * 1000 + ms) / 3600000 = h := by omega
  have e2 : (h * 3600000 + mi * 60000 + s * 1000 + ms) % 3600000 / 60000 = mi := by omega
  have e3 : (h * 3600000 + mi * 60000 + s * 1000 + ms) % 60000 / 1000 = s := by omega
  have e4 : (h * 3600000 + mi * 60000 + s * 1000 + ms) % 1000 = ms := by omega
  rw [e1, e2, e3, e4]

theorem fieldsOf_ranges (wall : Int) :
    1 ≤ (fieldsOf wall).month ∧ (fieldsOf wall).month ≤ 12 ∧
    1 ≤ (fieldsOf wall).day ∧ (fieldsOf wall).hour < 24 ∧
    (fieldsOf wall).minute < 60 ∧ (fieldsOf wall).second < 60 ∧
    (fieldsOf wall).millisecond < 1000 := by
  obtain ⟨q1, q2, q3⟩ := civil_mdBounds (wall / 86400000)
  have ht : (wall % 86400000).toNat < 86400000 := by omega
  exact ⟨q1, q2, q3, by show (wall % 86400000).toNat / 3600000 < 24; omega,
    by show (wall % 86400000).toNat % 3600000 / 60000 < 60; omega,
    by show (wall % 86400000).toNat % 60000 / 1000 < 60; omega,
    by show (wall % 86400000).toNat % 1000 < 1000; omega⟩

/-- Error taxonomy of the module: `InvalidSpecFormat` is the
`ValueError("Unrecognized timeUnit: ...")` of `_parse_timeunit_string`,
`EmptyFieldSet` the `ValueError("... is not a recognized timeunit")`,
`UnsupportedCombination` the `NotImplementedError("quarter and day
timeunit")`, `InvalidDate` the error `pd.to_datetime` raises on an
assembled non-existent date text, `TypeMismatch` an unsupported shape. -/
inductive Err where
  | invalidSpecFormat
  | emptyFieldSet
  | unsupportedCombination
  | invalidDate
  | typeMismatch
deriving DecidableEq

/-- The two timezones the module can attach: `'UTC'` or `tzlocal()`. -/
inductive Zone where
  | utc
  | loc
deriving DecidableEq

/-- UTC offset of a zone in milliseconds, `lo` being the fixed local-zone
offset. -/
def offset (lo : Int) : Zone → Int
  | Zone.utc => 0
  | Zone.loc => lo

/-- A pandas `Timestamp` at millisecond resolution: tz-aware values store
epoch milliseconds (UTC) plus the zone tag, naive values store wall-clock
milliseconds with no tag. -/
structure Instant where
  ms : Int
  tz : Option Zone
deriving DecidableEq

/-- A pandas `DatetimeIndex` at millisecond resolution: one tz tag for the
whole index; values are epoch ms when tagged, wall ms when naive. -/
structure InstantIndex where
  tz : Option Zone
  vals : List Int
deriving DecidableEq

def utcTok : List Char := ['u', 't', 'c']

def yearTok : List Char := ['y', 'e', 'a', 'r']

def quarterTok : List Char := ['q', 'u', 'a', 'r', 't', 'e', 'r']

def monthTok : List Char := ['m', 'o', 'n', 't', 'h']

def dayTok : List Char := ['d', 'a', 'y']

def dateTok : List Char := ['d', 'a', 't', 'e']

def hoursTok : List Char := ['h', 'o', 'u', 'r', 's']

def minutesTok : List Char := ['m', 'i', 'n', 'u', 't', 'e', 's']

def secondsTok : List Char := ['s', 'e', 'c', 'o', 'n', 'd', 's']

def millisecondsTok : List Char :=
  ['m', 'i', 'l', 'l', 'i', 's', 'e', 'c', 'o', 'n', 'd', 's']

def utcdayTok : List Char := ['u', 't', 'c', 'd', 'a', 'y']

/-- `_simple_timeunits`, in the fixed canonical order of the regex. -/
def timeunitTokens : List (List Char) :=
  [utcTok, yearTok, quarterTok, monthTok, dayTok, dateTok, hoursTok,
    minutesTok, secondsTok, millisecondsTok]

/-- `_parse_timeunit_string`: the anchored regex
`^(utc)?(year)?...(milliseconds)?$` matches exactly the concatenations of
an in-order selection of the tokens (no token is a prefix of a
concatenation of the tokens after it, so greedy in-order stripping decides
membership); `none` models the `ValueError` raised on a failed match, and
the returned selection is the match's named-group set. -/
def parseTokens : List (List Char) → List Char → Option (List (List Char))
  | [], s => if s = [] then some [] else none
  | t :: ts, s =>
    if t.isPrefixOf s then
      (parseTokens ts (s.drop t.length)).map (fun us => t :: us)
    else
      parseTokens ts s

/-- The `quarter` helper of `_compute_timeunit`:
`month - (month - 1) % 3`. -/
def quarter (m : Nat) : Nat := m - (m - 1) % 3

/-- pandas `.dayofweek` (Monday = 0) of a wall-clock millisecond value;
1970-01-01 was a Thursday (= 3). -/
def dayofweekWall (w : Int) : Int := (w / 86400000 + 3) % 7

/-- The `day`/`utcday` special case of `_compute_timeunit`:
`pd.to_datetime('2006-01-01') + pd.to_timedelta((dayofweek + 1) % 7, 'D')`
as a naive wall-clock millisecond value. -/
def dayAnchorWall (w : Int) : Int :=
  (daysFromCivil 2006 1 1 + (dayofweekWall w + 1) % 7) * 86400000

/-- Field substitution of `_compute_timeunit`: keep a component when its
token was selected, else use the default (year 1900, month/day 1, time 0);
with `quarter` selected and `month` absent the month component is the
quarter start month. -/
def bucketFields (us : List (List Char)) (f : Fields) : Fields :=
  ⟨if yearTok ∈ us then f.year else 1900,
    if monthTok ∈ us then f.month
      else if quarterTok ∈ us then quarter f.month else 1,
    if dateTok ∈ us then f.day else 1,
    if hoursTok ∈ us then f.hour else 0,
    if minutesTok ∈ us then f.minute else 0,
    if secondsTok ∈ us then f.second else 0,
    if millisecondsTok ∈ us then f.millisecond else 0⟩

/-- Wall-clock milliseconds of a `Fields` value. -/
def encodeF (f : Fields) : Int :=
  encodeFields f.year f.month f.day f.hour f.minute f.second f.millisecond

/-- One element of the general branch of `_compute_timeunit`: extract the
fields of the wall-clock value, substitute, and reparse the assembled text;
`pd.to_datetime` raises when the substituted day does not exist in the
substituted month (e.g. `1900-02-29` or `1900-04-31`). -/
def fieldBucket (us : List (List Char)) (wall : Int) : Except Err Int :=
  let g := bucketFields us (fieldsOf wall)
  if g.day ≤ daysInMonth g.year g.month then .ok (encodeF g)
  else .error Err.invalidDate

/-- Elementwise run of a fallible vectorized operation: any element's
failure fails the whole call, as a raised exception does in pandas. -/
def mapE (f : Int → Except Err Int) : List Int → Except Err (List Int)
  | [] => .ok []
  | a :: as =>
    match f a with
    | .error e => .error e
    | .ok b =>
      match mapE f as with
      | .error e => .error e
      | .ok bs => .ok (b :: bs)

/-- `'UTC' if timeunit.startswith('utc') else tzlocal()`. -/
def zoneOf (u : List Char) : Zone :=
  if utcTok.isPrefixOf u then Zone.utc else Zone.loc

/-- `compute_timeunit` on a `DatetimeIndex`: localize a naive input to the
local zone, convert to UTC or local as the spec demands, then apply
`_compute_timeunit`; the result of `_compute_timeunit` is naive (built by
`pd.to_datetime` from text without a timezone). -/
def computeTimeunitIndex (lo : Int) (dx : InstantIndex) (u : List Char) :
    Except Err InstantIndex :=
  let epochs := if dx.tz = none then dx.vals.map (fun v => v - lo) else dx.vals
  let walls := epochs.map (fun v => v + offset lo (zoneOf u))
  if u = dayTok ∨ u = utcdayTok then .ok ⟨none, walls.map dayAnchorWall⟩
  else
    match parseTokens timeunitTokens u with
    | none => .error Err.invalidSpecFormat
    | some us =>
      if dayTok ∈ us then .error Err.unsupportedCombination
      else if us = [] then .error Err.emptyFieldSet
      else (mapE (fieldBucket us) walls).map (fun ws => ⟨none, ws⟩)

/-- `compute_timeunit` on a scalar `Timestamp`: wrap into a one-element
`DatetimeIndex`, compute, and take element `[0]`. -/
def computeTimeunit (lo : Int) (d : Instant) (u : List Char) :
    Except Err Instant :=
  match computeTimeunitIndex lo ⟨d.tz, [d.ms]⟩ u with
  | .error e => .error e
  | .ok r =>
    match r.vals with
    | [w] => .ok ⟨w, none⟩
    | _ => .error Err.typeMismatch

/-- The per-element meaning of the pipeline: normalize the timezone of one
value and bucket it. -/
def bucketElem (lo : Int) (tz : Option Zone) (u : List Char) (v : Int) :
    Except Err Int :=
  let epoch := if tz = none then v - lo else v
  let wall := epoch + offset lo (zoneOf u)
  if u = dayTok ∨ u = utcdayTok then .ok (dayAnchorWall wall)
  else
    match parseTokens timeunitTokens u with
    | none => .error Err.invalidSpecFormat
    | some us =>
      if dayTok ∈ us then .error Err.unsupportedCombination
      else if us = [] then .error Err.emptyFieldSet
      else fieldBucket us wall

/-- `date_to_timestamp` on a scalar at millisecond resolution: localize a
naive value to the local zone, then take epoch milliseconds. -/
def date_to_timestamp (lo : Int) (d : Instant) : Int :=
  if d.tz = none then d.ms - lo else d.ms

/-- `timestamp_to_date`: interpret the number as UTC epoch milliseconds;
keep UTC if `utc`, convert to the local zone if `tz`, else convert to the
local zone and strip the tag (a naive local wall-clock value). -/
def timestamp_to_date (lo ts : Int) (tz utc : Bool) : Instant :=
  if utc then ⟨ts, some Zone.utc⟩
  else if tz then ⟨ts, some Zone.loc⟩
  else ⟨ts + lo, none⟩

/-- Epoch milliseconds denoted by an `Instant` (naive values are read in
the local zone, as the module's data model prescribes). -/
def epochOf (lo : Int) (d : Instant) : Int :=
  match d.tz with
  | none => d.ms - lo
  | some _ => d.ms

/-- The wall-clock value `_compute_timeunit` reads its fields from, for a
scalar input. -/
def wallOf (lo : Int) (d : Instant) (u : List Char) : Int :=
  (if d.tz = none then d.ms - lo else d.ms) + offset lo (zoneOf u)

deriving instance DecidableEq for Except

theorem computeTimeunit_eq (lo : Int) (d : Instant) (u : List Char) :
    computeTimeunit lo d u =
      (bucketElem lo d.tz u d.ms).map (fun w => (⟨w, none⟩ : Instant)) := by
  rcases d with ⟨ms, tz⟩
  unfold computeTimeunit computeTimeunitIndex bucketElem
  by_cases htz : tz = none
  · simp only [htz, if_pos rfl, if_true, List.map_cons, List.map_nil]
    by_cases hday : u = dayTok ∨ u = utcdayTok
    · simp [if_pos hday, Except.map]
    · simp only [if_neg hday]
      cases hp : parseTokens timeunitTokens u with
      | none => simp [Except.map]
      | some us =>
        by_cases hdu : dayTok ∈ us
        · simp [if_pos hdu, Except.map]
        · simp only [if_neg hdu]
          by_cases hus : us = []
          · simp [if_pos hus, Except.map]
          · simp only [if_neg hus, mapE]
            cases hfb : fieldBucket us (ms - lo + offset lo (zoneOf u)) with
            | error e => simp [hfb, Except.map]
            | ok b => simp [hfb, mapE, Except.map]
  · simp only [htz, if_neg htz, List.map_cons, List.map_nil]
    by_cases hday : u = dayTok ∨ u = utcdayTok
    · simp [if_pos hday, Except.map]
    · simp only [if_neg hday]
      cases hp : parseTokens timeunitTokens u with
      | none => simp [Except.map]
      | some us =>
        by_cases hdu : dayTok ∈ us
        · simp [if_pos hdu, Except.map]
        · simp only [if_neg hdu]
          by_cases hus : us = []
          · simp [if_pos hus, Except.map]
          · simp only [if_neg hus, mapE]
            cases hfb : fieldBucket us (ms + offset lo (zoneOf u)) with
            | error e => simp [hfb, Except.map]
            | ok b => simp [hfb, mapE, Except.map]

/-- Bool test: does `pat` occur as a contiguous substring? -/
def hasSub (pat : List Char) : List Char → Bool
  | [] => pat.isPrefixOf []
  | c :: rest => pat.isPrefixOf (c :: rest) || hasSub pat rest

theorem parseTokens_sound :
    ∀ ts s us, parseTokens ts s = some us → us.Sublist ts ∧ s = us.flatten := by
  intro ts
  induction ts with
  | nil =>
    intro s us h
    simp only [parseTokens] at h
    split at h
    · cases h
      simp_all
    · cases h
  | cons t ts ih =>
    intro s us h
    simp only [parseTokens] at h
    split at h
    case isTrue hpre =>
      cases hrec : parseTokens ts (s.drop t.length) with
      | none => rw [hrec] at h; cases h
      | some us' =>
        rw [hrec] at h
        cases h
        obtain ⟨hsub, hflat⟩ := ih _ _ hrec
        obtain ⟨rest, hrest⟩ := (List.isPrefixOf_iff_prefix.mp hpre)
        refine ⟨List.Sublist.cons₂ t hsub, ?_⟩
        rw [← hrest, List.drop_left] at hflat
        rw [← hrest, hflat]
        rfl
    case isFalse hpre =>
      obtain ⟨hsub, hflat⟩ := ih _ _ h
      exact ⟨List.Sublist.cons t hsub, hflat⟩

/-- In-order selection of list elements by a Bool mask. -/
def selectG {α : Type} : List Bool → List α → List α
  | b :: bs, t :: ts => (if b then [t] else []) ++ selectG bs ts
  | _, _ => []

theorem sublist_selectG {α : Type} {us ts : List α} (h : us.Sublist ts) :
    ∃ bs : List Bool, bs.length = ts.length ∧ selectG bs ts = us := by
  induction h with
  | slnil => exact ⟨[], rfl, rfl⟩
  | cons t h ih =>
    obtain ⟨bs, hlen, hsel⟩ := ih
    exact ⟨false :: bs, by simp [hlen], by simp [selectG, hsel]⟩
  | cons₂ t h ih =>
    obtain ⟨bs, hlen, hsel⟩ := ih
    exact ⟨true :: bs, by simp [hlen], by simp [selectG, hsel]⟩

set_option maxHeartbeats 2000000 in
theorem day_sel :
    ∀ b1 b2 b3 b4 b5 b6 b7 b8 b9 b10 : Bool,
      hasSub dayTok
        (selectG [b1, b2, b3, b4, b5, b6, b7, b8, b9, b10] timeunitTokens).flatten
        = true →
      dayTok ∈ selectG [b1, b2, b3, b4, b5, b6, b7, b8, b9, b10] timeunitTokens := by
  decide

set_option maxHeartbeats 2000000 in
theorem complete_sel :
    ∀ b1 b2 b3 b4 b5 b6 b7 b8 b9 b10 : Bool,
      parseTokens timeunitTokens
        (selectG [b1, b2, b3, b4, b5, b6, b7, b8, b9, b10] timeunitTokens).flatten
        = some (selectG [b1, b2, b3, b4, b5, b6, b7, b8, b9, b10] timeunitTokens) := by
  decide

theorem day_infix_mem {us : List (List Char)} (h : us.Sublist timeunitTokens)
    (hsub : hasSub dayTok us.flatten = true) : dayTok ∈ us := by
  obtain ⟨bs, hlen, hsel⟩ := sublist_selectG h
  have h10 : bs.length = 10 := hlen
  rcases bs with _ | ⟨b1, bs⟩; · simp at h10
  rcases bs with _ | ⟨b2, bs⟩; · simp at h10
  rcases bs with _ | ⟨b3, bs⟩; · simp at h10
  rcases bs with _ | ⟨b4, bs⟩; · simp at h10
  rcases bs with _ | ⟨b5, bs⟩; · simp at h10
  rcases bs with _ | ⟨b6, bs⟩; · simp at h10
  rcases bs with _ | ⟨b7, bs⟩; · simp at h10
  rcases bs with _ | ⟨b8, bs⟩; · simp at h10
  rcases bs with _ | ⟨b9, bs⟩; · simp at h10
  rcases bs with _ | ⟨b10, bs⟩; · simp at h10
  rcases bs with _ | ⟨b11, bs⟩
  · subst hsel
    exact day_sel b1 b2 b3 b4 b5 b6 b7 b8 b9 b10 hsub
  · simp at h10

theorem fieldBucket_ok (us : List (List Char)) (wall w : Int)
    (h : fieldBucket us wall = .ok w) :
    w = encodeF (bucketFields us (fieldsOf wall)) ∧
    (bucketFields us (fieldsOf wall)).day ≤
      daysInMonth (bucketFields us (fieldsOf wall)).year
        (bucketFields us (fieldsOf wall)).month := by
  simp only [fieldBucket] at h
  split at h
  case isTrue hg =>
    cases h
    exact ⟨rfl, hg⟩
  case isFalse hg => cases h

theorem bucketFields_ranges (us : List (List Char)) (f : Fields)
    (h1 : 1 ≤ f.month) (h2 : f.month ≤ 12) (h3 : 1 ≤ f.day)
    (h4 : f.hour < 24) (h5 : f.minute < 60) (h6 : f.second < 60)
    (h7 : f.millisecond < 1000) :
    1 ≤ (bucketFields us f).month ∧ (bucketFields us f).month ≤ 12 ∧
    1 ≤ (bucketFields us f).day ∧ (bucketFields us f).hour < 24 ∧
    (bucketFields us f).minute < 60 ∧ (bucketFields us f).second < 60 ∧
    (bucketFields us f).millisecond < 1000 := by
  unfold bucketFields
  dsimp only
  refine ⟨?_, ?_, ?_, ?_, ?_, ?_, ?_⟩ <;> (repeat' split) <;>
    first
    | (unfold quarter; omega)
    | omega

theorem fieldsOf_encodeF (g : Fields) (hm1 : 1 ≤ g.month) (hm2 : g.month ≤ 12)
    (hd1 : 1 ≤ g.day) (hd2 : g.day ≤ daysInMonth g.year g.month)
    (hh : g.hour < 24) (hmi : g.minute < 60) (hs : g.second < 60)
    (hms : g.millisecond < 1000) : fieldsOf (encodeF g) = g := by
  rcases g with ⟨y, m, d, h, mi, s, ms⟩
  exact fieldsOf_encodeFields y m d h mi s ms hm1 hm2 hd1 hd2 hh hmi hs hms

/-- Claim C1: round trip.  For every Instant `T` at millisecond resolution,
`timestamp_to_date lo (date_to_timestamp lo T) false false` (default
arguments) is a naive value denoting the same epoch instant as `T` (exact
equality, hence within 1 ms), under any fixed local-zone offset `lo`; in
particular a naive local `T` is returned unchanged. -/
theorem claim1_roundtrip (lo : Int) (T : Instant) :
    (timestamp_to_date lo (date_to_timestamp lo T) false false).tz = none ∧
    epochOf lo (timestamp_to_date lo (date_to_timestamp lo T) false false) =
      epochOf lo T ∧
    (T.tz = none →
      timestamp_to_date lo (date_to_timestamp lo T) false false = T) := by
  rcases T with ⟨ms, tz⟩
  cases tz with
  | none =>
    refine ⟨rfl, ?_, ?_⟩
    · show ms - lo + lo - lo = ms - lo
      omega
    · intro h
      show (⟨ms - lo + lo, none⟩ : Instant) = ⟨ms, none⟩
      have he : ms - lo + lo = ms := by omega
      rw [he]
  | some z =>
    refine ⟨rfl, ?_, ?_⟩
    · show ms + lo - lo = ms
      omega
    · intro h
      cases h

/-- Witness for C1 at a concrete naive local instant and a concrete
non-zero local offset. -/
theorem claim1_roundtrip_witness :
    timestamp_to_date 3600000 (date_to_timestamp 3600000 ⟨123456, none⟩)
      false false = ⟨123456, none⟩ :=
  (claim1_roundtrip 3600000 ⟨123456, none⟩).2.2 rfl

/-- Claim C2, counterexample to the claim as stated: on the instant
2021-07-15T13:45:30.250 tagged UTC, `compute_timeunit` with `"utcyear"`
returns the NAIVE instant 2021-01-01T00:00:00.000 — it does not equal the
UTC-zone-tagged instant the claim asserts (`_compute_timeunit` builds its
result by `pd.to_datetime` on text with no timezone, so the tag is lost). -/
theorem claim2_counterexample :
    computeTimeunit 0 ⟨encodeFields 2021 7 15 13 45 30 250, some Zone.utc⟩
        (utcTok ++ yearTok) =
      .ok ⟨encodeFields 2021 1 1 0 0 0 0, none⟩ ∧
    computeTimeunit 0 ⟨encodeFields 2021 7 15 13 45 30 250, some Zone.utc⟩
        (utcTok ++ yearTok) ≠
      .ok ⟨encodeFields 2021 1 1 0 0 0 0, some Zone.utc⟩ := by
  refine ⟨by decide, by decide⟩

/-- Claim C2 as amended: `compute_timeunit` on 2021-07-15T13:45:30.250 UTC
with `"utcyear"` returns the naive (untagged) instant
2021-01-01T00:00:00.000, whose calendar fields were computed on the UTC
calendar; the result is independent of the local-zone offset. -/
theorem claim2_utcyear (lo : Int) :
    computeTimeunit lo ⟨encodeFields 2021 7 15 13 45 30 250, some Zone.utc⟩
        (utcTok ++ yearTok) =
      .ok ⟨encodeFields 2021 1 1 0 0 0 0, none⟩ := by
  rw [computeTimeunit_eq]
  show (bucketElem lo (some Zone.utc) (utcTok ++ yearTok)
      (encodeFields 2021 7 15 13 45 30 250)).map
      (fun w => (⟨w, none⟩ : Instant)) = _
  simp only [bucketElem,
    if_neg (show ¬((some Zone.utc : Option Zone) = none) by simp)]
  rw [show offset lo (zoneOf (utcTok ++ yearTok)) = 0 from rfl, add_zero]
  rfl

/-- Claim C6, counterexample to the claim as stated: `_parse_timeunit_string`
on the empty spec does NOT raise — the regex (every group optional) matches
the empty string and the parser returns the empty field set. -/
theorem claim6_counterexample :
    parseTokens timeunitTokens ([] : List Char) = some [] := rfl

/-- Claim C6 as amended: parsing the empty spec succeeds with the empty
field set; the `EmptyFieldSet` error is raised (synchronously, with no
result) by the evaluator `_compute_timeunit`, so `compute_timeunit` on the
empty spec fails for every input. -/
theorem claim6_empty (lo : Int) (x : Instant) :
    parseTokens timeunitTokens ([] : List Char) = some [] ∧
    computeTimeunit lo x ([] : List Char) = .error Err.emptyFieldSet := by
  refine ⟨rfl, ?_⟩
  rcases x with ⟨ms, tz⟩
  cases tz <;> rfl

/-- Claim C4, counterexample to the claim as stated: the fixed reference
anchor 2006-01-01 is a SUNDAY (pandas weekday index 6), not a Monday
(index 0): a Sunday input is mapped to the anchor itself (offset 0), so
the 7 consecutive outputs 2006-01-01..2006-01-07 run Sunday through
Saturday and are not anchored at a reference Monday. -/
theorem claim4_counterexample :
    computeTimeunit 0 ⟨encodeFields 2006 1 1 0 0 0 0, none⟩ dayTok =
      .ok ⟨encodeFields 2006 1 1 0 0 0 0, none⟩ ∧
    dayofweekWall (encodeFields 2006 1 1 0 0 0 0) = 6 ∧ (6 : Int) ≠ 0 := by
  refine ⟨by decide, by decide, by decide⟩

/-- Claim C4 as amended: `compute_timeunit (x, "day")` equals the fixed
reference anchor 2006-01-01 advanced by `(weekday_index(x) + 1) mod 7`
days (weekday index 0 = Monday, read off the local wall clock); hence any
two inputs on the same weekday give equal outputs, and the 7 possible
outputs are the consecutive calendar days 2006-01-01..2006-01-07 anchored
at the fixed reference SUNDAY 2006-01-01 (each output falls on the same
weekday as its input). -/
theorem claim4_day (lo : Int) (x : Instant) :
    computeTimeunit lo x dayTok =
      .ok ⟨(daysFromCivil 2006 1 1 + (dayofweekWall (wallOf lo x dayTok) + 1) % 7)
        * 86400000, none⟩ ∧
    (∀ y : Instant,
      dayofweekWall (wallOf lo y dayTok) = dayofweekWall (wallOf lo x dayTok) →
      computeTimeunit lo y dayTok = computeTimeunit lo x dayTok) ∧
    (∃ k : Int, 0 ≤ k ∧ k < 7 ∧
      computeTimeunit lo x dayTok =
        .ok ⟨(daysFromCivil 2006 1 1 + k) * 86400000, none⟩) ∧
    dayofweekWall (daysFromCivil 2006 1 1 * 86400000) = 6 := by
  have hmain : ∀ z : Instant, computeTimeunit lo z dayTok =
      .ok ⟨(daysFromCivil 2006 1 1 +
        (dayofweekWall (wallOf lo z dayTok) + 1) % 7) * 86400000, none⟩ := by
    intro z
    rw [computeTimeunit_eq]
    rfl
  refine ⟨hmain x, ?_, ?_, by decide⟩
  · intro y he
    rw [hmain y, hmain x, he]
  · exact ⟨(dayofweekWall (wallOf lo x dayTok) + 1) % 7, by omega, by omega,
      hmain x⟩

/-- Witness for C4 at two concrete Wednesdays (2021-01-06 and 2021-01-13). -/
theorem claim4_day_witness :
    computeTimeunit 0 ⟨encodeFields 2021 1 6 0 0 0 0, none⟩ dayTok =
      computeTimeunit 0 ⟨encodeFields 2021 1 13 0 0 0 0, none⟩ dayTok :=
  (claim4_day 0 ⟨encodeFields 2021 1 13 0 0 0 0, none⟩).2.1
    ⟨encodeFields 2021 1 6 0 0 0 0, none⟩ (by decide)

/-- Claim C5: every spec string that contains `day` as a substring and is
not exactly `"day"` or `"utcday"` (the two forms the evaluator special
cases as day-of-week) makes `compute_timeunit` raise synchronously — a
grammar mismatch for strings the regex rejects, `UnsupportedCombination`
for accepted in-order strings such as `"yearday"` — and never returns a
partially bucketed value.  (When the regex accepts a string containing
`"day"`, its field set necessarily contains the `day` token: no other
token and no in-order token boundary spells `d`,`a`,`y`.) -/
theorem claim5_day_combination (lo : Int) (x : Instant) (s : List Char)
    (hday : hasSub dayTok s = true) (h1 : s ≠ dayTok) (h2 : s ≠ utcdayTok) :
    ∃ e, computeTimeunit lo x s = .error e := by
  rw [computeTimeunit_eq]
  simp only [bucketElem, if_neg (show ¬(s = dayTok ∨ s = utcdayTok) from by
    rintro (h | h) <;> [exact h1 h; exact h2 h])]
  cases hp : parseTokens timeunitTokens s with
  | none => exact ⟨Err.invalidSpecFormat, rfl⟩
  | some us =>
    obtain ⟨hsub, hflat⟩ := parseTokens_sound _ _ _ hp
    have hmem : dayTok ∈ us := day_infix_mem hsub (by rw [← hflat]; exact hday)
    dsimp only
    rw [if_pos hmem]
    exact ⟨Err.unsupportedCombination, rfl⟩

/-- Witness for C5 on the in-order spec `"yearday"`. -/
theorem claim5_witness :
    ∃ e, computeTimeunit 0 ⟨0, none⟩ (yearTok ++ dayTok) = .error e :=
  claim5_day_combination 0 ⟨0, none⟩ (yearTok ++ dayTok) (by decide) (by decide)
    (by decide)

/-- Claim C8: quarter mapping.  `quarter m = m - (m - 1) % 3` lands in
{1, 4, 7, 10} for every month 1..12, with 5 ↦ 4 and 11 ↦ 10; and whenever
a spec's field set contains `quarter` but not `month` (nor `day`), the
month component of a successful `compute_timeunit` result is exactly
`quarter` of the month extracted from the normalized input. -/
theorem claim8_quarter :
    (∀ m : Nat, 1 ≤ m → m ≤ 12 →
      (quarter m = 1 ∨ quarter m = 4 ∨ quarter m = 7 ∨ quarter m = 10)) ∧
    quarter 5 = 4 ∧ quarter 11 = 10 ∧
    (∀ (lo : Int) (d : Instant) (u : List Char) (us : List (List Char))
      (r : Instant),
      parseTokens timeunitTokens u = some us → quarterTok ∈ us →
      monthTok ∉ us → u ≠ dayTok → u ≠ utcdayTok →
      computeTimeunit lo d u = .ok r →
      (fieldsOf r.ms).month = quarter ((fieldsOf (wallOf lo d u)).month) ∧
      ((fieldsOf r.ms).month = 1 ∨ (fieldsOf r.ms).month = 4 ∨
        (fieldsOf r.ms).month = 7 ∨ (fieldsOf r.ms).month = 10)) := by
  refine ⟨?_, rfl, rfl, ?_⟩
  · intro m h1 h2
    unfold quarter
    omega
  · intro lo d u us r hp hq hm hd1 hd2 hok
    rw [computeTimeunit_eq] at hok
    cases hb : bucketElem lo d.tz u d.ms with
    | error e =>
      rw [hb] at hok
      simp [Except.map] at hok
    | ok w =>
      rw [hb] at hok
      simp only [Except.map] at hok
      cases hok
      simp only [bucketElem, if_neg (show ¬(u = dayTok ∨ u = utcdayTok) from by
        rintro (h | h) <;> [exact hd1 h; exact hd2 h])] at hb
      rw [hp] at hb
      dsimp only at hb
      have hdu : dayTok ∉ us := by
        intro hmem
        rw [if_pos hmem] at hb
        cases hb
      rw [if_neg hdu] at hb
      have hus : us ≠ [] := by
        rintro rfl
        cases hq
      rw [if_neg hus] at hb
      obtain ⟨hw, hguard⟩ := fieldBucket_ok us _ w hb
      obtain ⟨r1, r2, r3, r4, r5, r6, r7⟩ :=
        fieldsOf_ranges ((if d.tz = none then d.ms - lo else d.ms) +
          offset lo (zoneOf u))
      obtain ⟨g1, g2, g3, g4, g5, g6, g7⟩ :=
        bucketFields_ranges us _ r1 r2 r3 r4 r5 r6 r7
      have hfe : fieldsOf w =
          bucketFields us (fieldsOf ((if d.tz = none then d.ms - lo else d.ms) +
            offset lo (zoneOf u))) := by
        rw [hw]
        exact fieldsOf_encodeF _ g1 g2 g3 hguard g4 g5 g6 g7
      have hwall : wallOf lo d u =
          (if d.tz = none then d.ms - lo else d.ms) + offset lo (zoneOf u) := rfl
      have hmq : (bucketFields us (fieldsOf ((if d.tz = none then d.ms - lo
          else d.ms) + offset lo (zoneOf u)))).month =
          quarter ((fieldsOf ((if d.tz = none then d.ms - lo else d.ms) +
            offset lo (zoneOf u))).month) := by
        unfold bucketFields
        dsimp only
        rw [if_neg hm, if_pos hq]
      show (fieldsOf w).month = _ ∧ _
      rw [hwall, hfe, hmq]
      refine ⟨rfl, ?_⟩
      have := r1
      have := r2
      unfold quarter
      omega

/-- Witness for C8: the numeric facts plus the month component of a
concrete `"quarter"` bucketing of 2021-05-20T10:00 (May ↦ April). -/
theorem claim8_quarter_witness :
    quarter 5 = 4 ∧
    (fieldsOf (Instant.mk (encodeFields 1900 4 1 0 0 0 0) none).ms).month =
      quarter ((fieldsOf (wallOf 0 ⟨encodeFields 2021 5 20 10 0 0 0, none⟩
        quarterTok)).month) :=
  ⟨claim8_quarter.2.1,
    (claim8_quarter.2.2.2 0 ⟨encodeFields 2021 5 20 10 0 0 0, none⟩ quarterTok
      [quarterTok] ⟨encodeFields 1900 4 1 0 0 0 0, none⟩ (by decide) (by decide)
      (by decide) (by decide) (by decide) (by decide)).1⟩

